import Mathlib

/-!
Verification of the splasher flash programmer's protocol engine
(src/src/hardware.cpp, src/src/main.cpp, src/include/hardware.hpp).

The hardware is modelled at two levels.

Bit level (hwSPI::tx_byte / hwSPI::rx_byte): `tx_byte_drivenBits` is the
sequence of levels the code drives on the MOSI line at the eight clock
pulses, and `rx_byte_fromSamples` is the accumulator logic of rx_byte
applied to the sequence of levels sampled on MISO.

Bus level: every hardware-touching action of the command layer becomes a
`BusEvent` (constructor-time pin setup, write-protect writes, chip-select
start/stop, byte transmit, byte receive).  Bytes clocked in from the chip
come from an oracle `chip : Nat → Nat`, indexed by how many receives have
happened so far; values are reduced mod 256 as the hardware returns one
byte per receive.  Delays (gpioDelay) and console output are not part of
the trace: they touch no pin and carry no data.

The unbounded busy-wait loop `s25_waitBusy` and the loops calling it are
given explicit fuel and return `none` when the fuel runs out; the source
has no such bound, so theorems about these functions are stated for the
executions that terminate (`= some _`).

`unsigned long` byte counts are modelled as `Nat`: the program rejects
counts above 256 MiB (Limits::MAX_BYTES) long before they reach the
engine, so 64-bit wraparound cannot occur in any validated execution.
-/

set_option maxRecDepth 8000

/-- enum class IFACE (hardware.hpp). -/
inductive IFACE
| SPI
| DSPI
| QSPI
| I2C
deriving DecidableEq

/-- enum class PROT (hardware.hpp). -/
inductive PROT
| S24
| S25
deriving DecidableEq

/-- struct ChipId: three raw JEDEC identity bytes (hardware.hpp). -/
structure ChipId where
  manufacturer : Nat
  memoryType : Nat
  capacity : Nat
deriving DecidableEq

/-- struct Device (hardware.hpp). -/
structure Device where
  interface : IFACE
  protocol : PROT
  KHz : Nat
  bytes : Nat
  offset : Nat
  jedecId : ChipId
  jedecValid : Bool
deriving DecidableEq

namespace Limits

/-- Limits::MAX_BYTES (hardware.hpp). -/
def MAX_BYTES : Nat := 268435456

/-- Limits::MAX_KHZ (hardware.hpp). -/
def MAX_KHZ : Nat := 1000

/-- Limits::S25_PAGE_SIZE (hardware.hpp). -/
def S25_PAGE_SIZE : Nat := 256

end Limits

namespace Cmd

namespace S25

/-- Cmd::S25::READ (hardware.hpp). -/
def READ : Nat := 0x03

/-- Cmd::S25::WRITE_ENABLE (hardware.hpp). -/
def WRITE_ENABLE : Nat := 0x06

/-- Cmd::S25::PAGE_PROGRAM (hardware.hpp). -/
def PAGE_PROGRAM : Nat := 0x02

/-- Cmd::S25::SECTOR_ERASE_4K (hardware.hpp). -/
def SECTOR_ERASE_4K : Nat := 0x20

/-- Cmd::S25::CHIP_ERASE (hardware.hpp). -/
def CHIP_ERASE : Nat := 0xC7

/-- Cmd::S25::READ_JEDEC_ID (hardware.hpp). -/
def READ_JEDEC_ID : Nat := 0x9F

/-- Cmd::S25::READ_STATUS (hardware.hpp). -/
def READ_STATUS : Nat := 0x05

end S25

end Cmd

/-- The three delay quanta of hwSPI (hardware.hpp: wait_clk, wait_byte, wait_bit). -/
structure TimingProfile where
  wait_clk : Nat
  wait_byte : Nat
  wait_bit : Nat
deriving DecidableEq

/-- hwSPI::setTiming (hardware.cpp lines 58-71): KHz = 0 clears all three
delay quanta; otherwise the half-period is 500 / KHz microseconds floored
at 1, and all three quanta are set to that value. -/
def setTiming (KHz : Nat) : TimingProfile :=
  if KHz = 0 then
    { wait_clk := 0, wait_byte := 0, wait_bit := 0 }
  else
    let halfUs := 500 / KHz
    let halfUs := if halfUs < 1 then 1 else halfUs
    { wait_clk := halfUs, wait_byte := halfUs, wait_bit := halfUs }

/-- hwSPI::tx_byte (hardware.cpp lines 73-90): for bitIndex = 7 down to 0 the
code drives MOSI to (byte >> bitIndex) & 0x01 and pulses SCLK.  This is the
sequence of levels driven at the eight clock pulses, in order. -/
def tx_byte_drivenBits (byte : Nat) : List Nat :=
  [7, 6, 5, 4, 3, 2, 1, 0].map (fun bitIndex => (byte >>> bitIndex) &&& 0x01)

/-- hwSPI::rx_byte (hardware.cpp lines 92-118): data starts at 0; for each of
8 samples the code shifts data left one position and sets the low bit when
the sampled MISO level is nonzero.  Applied to the list of sampled levels. -/
def rx_byte_fromSamples (samples : List Nat) : Nat :=
  samples.foldl
    (fun data cBit =>
      let data := data <<< 1
      if cBit ≠ 0 then data ||| 0x01 else data)
    0

/-- One hardware-touching action at the bus level.  `init` is the hwSPI
constructor (pin modes, idle levels, deselect, write-protect assert);
`wp` is setWriteProtect; `start`/`stop` drive chip-select; `tx` transmits a
byte; `rx` receives a byte whose value is recorded. -/
inductive BusEvent
| init
| wp (enabled : Bool)
| start
| stop
| tx (b : Nat)
| rx (b : Nat)
deriving DecidableEq

/-- Result of hwSPI::readJedecId: the identity read, the returned Bool, the
bus trace, and the next receive index. -/
structure JedecResult where
  id : ChipId
  ok : Bool
  events : List BusEvent
  kNext : Nat
deriving DecidableEq

/-- hwSPI::readJedecId (hardware.cpp lines 135-143): start, transmit 0x9F,
receive three bytes, stop, and return true unconditionally. -/
def readJedecId (chip : Nat → Nat) (k : Nat) : JedecResult :=
  let m := chip k % 256
  let t := chip (k + 1) % 256
  let c := chip (k + 2) % 256
  { id := { manufacturer := m, memoryType := t, capacity := c },
    ok := true,
    events := [BusEvent.start, BusEvent.tx Cmd.S25.READ_JEDEC_ID,
               BusEvent.rx m, BusEvent.rx t, BusEvent.rx c, BusEvent.stop],
    kNext := k + 3 }

/-- hwSPI::readId (hardware.cpp line 133) forwards to readJedecId. -/
def readId (chip : Nat → Nat) (k : Nat) : JedecResult :=
  readJedecId chip k

/-- splasher::initRead (hardware.cpp lines 148-154): when the transport is an
hwSPI the timing is configured and dev.jedecValid is set from readId;
otherwise nothing happens. -/
def initRead (isSPI : Bool) (dev : Device) (chip : Nat → Nat) (k : Nat) :
    Device × List BusEvent × Nat :=
  if isSPI then
    let r := readId chip k
    ({ dev with jedecId := r.id, jedecValid := r.ok }, r.events, r.kNext)
  else
    (dev, [], k)

/-- The three address bytes the command layer transmits for a 24-bit address:
(addr >> 16) & 0xFF, (addr >> 8) & 0xFF, addr & 0xFF (hardware.cpp). -/
def addrBytes (addr : Nat) : List Nat :=
  [(addr >>> 16) &&& 0xFF, (addr >>> 8) &&& 0xFF, addr &&& 0xFF]

/-- Observable outcome of a public flash operation: whether a diagnostic was
reported and the operation aborted before touching hardware, the bus trace,
and the bytes pushed to the output file. -/
structure OpResult where
  diag : Bool
  events : List BusEvent
  fileOut : List Nat
deriving DecidableEq

/-- The read loop of splasher::dumpFlashToFile (hardware.cpp lines 194-202):
for cByte = 1 up to dev.bytes + 1 exclusive, i.e. exactly `n` iterations,
read a byte and push it to the file.  `k` is the receive index. -/
def dumpLoop (chip : Nat → Nat) : Nat → Nat → List BusEvent × List Nat
  | _, 0 => ([], [])
  | k, n + 1 =>
    let b := chip k % 256
    let r := dumpLoop chip (k + 1) n
    (BusEvent.rx b :: r.1, b :: r.2)

/-- splasher::dumpFlashToFile (hardware.cpp lines 172-206): reject an
unsupported pairing before any hardware access; otherwise construct the
transport, run initRead (JEDEC identify), then one transaction that
transmits the read opcode and the 3-byte big-endian offset and receives
dev.bytes bytes, each pushed to the file as produced. -/
def dumpFlashToFile (dev : Device) (chip : Nat → Nat) : OpResult :=
  if dev.interface ≠ IFACE.SPI ∨ dev.protocol ≠ PROT.S25 then
    { diag := true, events := [], fileOut := [] }
  else
    let ir := initRead true dev chip 0
    let cmd := [BusEvent.start, BusEvent.tx Cmd.S25.READ] ++
      (addrBytes dev.offset).map BusEvent.tx
    let rd := dumpLoop chip ir.2.2 dev.bytes
    { diag := false,
      events := [BusEvent.init] ++ ir.2.1 ++ cmd ++ rd.1 ++ [BusEvent.stop],
      fileOut := rd.2 }

/-- splasher::s25_waitBusy (hardware.cpp lines 208-216): repeatedly start,
transmit the read-status opcode, receive the status byte, stop, until the
write-in-progress bit (bit 0) is clear.  The source loop is unbounded; the
model takes fuel and returns none when it is exhausted. -/
def s25_waitBusy (chip : Nat → Nat) : Nat → Nat → Option (List BusEvent × Nat)
  | 0, _ => none
  | fuel + 1, k =>
    let st := chip k % 256
    let evs := [BusEvent.start, BusEvent.tx Cmd.S25.READ_STATUS,
                BusEvent.rx st, BusEvent.stop]
    if st &&& 1 = 0 then some (evs, k + 1)
    else
      match s25_waitBusy chip fuel (k + 1) with
      | none => none
      | some (evs2, k2) => some (evs ++ evs2, k2)

/-- BinFile::pullByteFromFile in read mode, as a byte stream over the file
content: returns the byte at the current position and the advanced
position, or none at end of file. -/
def pullByteFromFile (src : List Nat) (pos : Nat) : Option (Nat × Nat) :=
  match src.get? pos with
  | none => none
  | some b => some (b, pos + 1)

/-- The inner data loop of splasher::writeFileToFlash (hardware.cpp lines
246-250): for i in [0, chunk) pull a byte from the file, breaking out on
end of file, and transmit it.  Returns the bytes transmitted and the file
position reached. -/
def progData (src : List Nat) : Nat → Nat → List Nat × Nat
  | pos, 0 => ([], pos)
  | pos, n + 1 =>
    match pullByteFromFile src pos with
    | none => ([], pos)
    | some (b, pos2) =>
      let r := progData src pos2 n
      (b :: r.1, r.2)

/-- The while loop of splasher::writeFileToFlash (hardware.cpp lines
236-259): while remaining > 0, take a chunk of at most one page, issue
write-enable, issue page-program with the 3-byte address and the data the
file still yields, busy-poll, then advance addr by chunk and decrease
remaining by chunk.  Fuel bounds the busy-polls and the iteration count. -/
def writeLoop (chip : Nat → Nat) (src : List Nat) :
    Nat → Nat → Nat → Nat → Nat → Option (List BusEvent × Nat × Nat)
  | 0, _, remaining, pos, k =>
    if remaining = 0 then some ([], pos, k) else none
  | fuel + 1, addr, remaining, pos, k =>
    if remaining = 0 then some ([], pos, k)
    else
      let chunk := if remaining > Limits.S25_PAGE_SIZE then Limits.S25_PAGE_SIZE
        else remaining
      let d := progData src pos chunk
      let evs1 := [BusEvent.start, BusEvent.tx Cmd.S25.WRITE_ENABLE,
          BusEvent.stop, BusEvent.start, BusEvent.tx Cmd.S25.PAGE_PROGRAM] ++
        (addrBytes addr).map BusEvent.tx ++ d.1.map BusEvent.tx ++
        [BusEvent.stop]
      match s25_waitBusy chip (fuel + 1) k with
      | none => none
      | some (bevs, k2) =>
        match writeLoop chip src fuel (addr + chunk) (remaining - chunk) d.2 k2 with
        | none => none
        | some (revs, pos2, k3) => some (evs1 ++ bevs ++ revs, pos2, k3)

/-- splasher::writeFileToFlash (hardware.cpp lines 218-261): reject an
unsupported pairing, then a file not opened for reading, before any
hardware access; otherwise construct the transport, disable write protect
(initWrite), and run the page-program loop from dev.offset for dev.bytes
bytes. -/
def writeFileToFlash (dev : Device) (readMode : Bool) (src : List Nat)
    (chip : Nat → Nat) (fuel : Nat) : Option OpResult :=
  if dev.interface ≠ IFACE.SPI ∨ dev.protocol ≠ PROT.S25 then
    some { diag := true, events := [], fileOut := [] }
  else if ¬ readMode then
    some { diag := true, events := [], fileOut := [] }
  else
    match writeLoop chip src fuel dev.offset dev.bytes 0 0 with
    | none => none
    | some (evs, _, _) =>
      some { diag := false,
             events := [BusEvent.init, BusEvent.wp false] ++ evs,
             fileOut := [] }

/-- The sector-erase loop of splasher::eraseFlash (hardware.cpp lines
283-295): while addr < end, start (nested inside the transaction opened at
line 275), write-enable, stop, start, sector-erase with 3-byte address,
stop, busy-poll, addr += 4096. -/
def eraseLoop (chip : Nat → Nat) :
    Nat → Nat → Nat → Nat → Option (List BusEvent × Nat)
  | 0, addr, endAddr, k =>
    if addr < endAddr then none else some ([], k)
  | fuel + 1, addr, endAddr, k =>
    if addr < endAddr then
      let evs1 := [BusEvent.start, BusEvent.tx Cmd.S25.WRITE_ENABLE,
          BusEvent.stop, BusEvent.start, BusEvent.tx Cmd.S25.SECTOR_ERASE_4K] ++
        (addrBytes addr).map BusEvent.tx ++ [BusEvent.stop]
      match s25_waitBusy chip (fuel + 1) k with
      | none => none
      | some (bevs, k2) =>
        match eraseLoop chip fuel (addr + 4096) endAddr k2 with
        | none => none
        | some (revs, k3) => some (evs1 ++ bevs ++ revs, k3)
    else some ([], k)

/-- splasher::eraseFlash (hardware.cpp lines 263-299): reject an unsupported
pairing before any hardware access; otherwise construct the transport,
disable write protect, issue write-enable in its own transaction, open a
transaction (line 275), then either transmit chip-erase (byteCount = 0) or
run the sector-erase loop over [offset, offset + byteCount), and finally
stop (line 298). -/
def eraseFlash (dev : Device) (byteCount : Nat) (chip : Nat → Nat)
    (fuel : Nat) : Option OpResult :=
  if dev.interface ≠ IFACE.SPI ∨ dev.protocol ≠ PROT.S25 then
    some { diag := true, events := [], fileOut := [] }
  else
    let pre := [BusEvent.init, BusEvent.wp false, BusEvent.start,
                BusEvent.tx Cmd.S25.WRITE_ENABLE, BusEvent.stop, BusEvent.start]
    if byteCount = 0 then
      some { diag := false,
             events := pre ++ [BusEvent.tx Cmd.S25.CHIP_ERASE, BusEvent.stop],
             fileOut := [] }
    else
      match eraseLoop chip fuel dev.offset (dev.offset + byteCount) 0 with
      | none => none
      | some (evs, _) =>
        some { diag := false, events := pre ++ evs ++ [BusEvent.stop],
               fileOut := [] }

/-- Chip-select discipline scan: tracks whether a transaction is open and
fails (none) on a start while open, or a stop while closed.  A trace obeys
the one-open-transaction discipline iff the scan from closed ends closed. -/
def csRun : Bool → List BusEvent → Option Bool
  | o, [] => some o
  | o, BusEvent.start :: r => if o then none else csRun true r
  | o, BusEvent.stop :: r => if o then csRun false r else none
  | o, BusEvent.tx _ :: r => csRun o r
  | o, BusEvent.rx _ :: r => csRun o r
  | o, BusEvent.init :: r => csRun o r
  | o, BusEvent.wp _ :: r => csRun o r

/-- A trace is transaction-balanced: every start is matched by a stop before
the next start, and the trace ends deselected. -/
def csBalanced (t : List BusEvent) : Bool :=
  csRun false t == some false

/-- Frame extraction: splits a trace into the lists of bytes transmitted
inside each start..stop pair, committing the open frame on a nested start
or at the end of the trace. -/
def framesA : Option (List Nat) → List BusEvent → List (List Nat)
  | none, [] => []
  | some c, [] => [c.reverse]
  | none, BusEvent.start :: r => framesA (some []) r
  | some c, BusEvent.start :: r => c.reverse :: framesA (some []) r
  | none, BusEvent.stop :: r => framesA none r
  | some c, BusEvent.stop :: r => c.reverse :: framesA none r
  | none, BusEvent.tx _ :: r => framesA none r
  | some c, BusEvent.tx b :: r => framesA (some (b :: c)) r
  | cur, BusEvent.rx _ :: r => framesA cur r
  | cur, BusEvent.init :: r => framesA cur r
  | cur, BusEvent.wp _ :: r => framesA cur r

/-- The per-transaction transmitted-byte frames of a trace. -/
def frames (t : List BusEvent) : List (List Nat) :=
  framesA none t

/-- All bytes transmitted on the bus, in order. -/
def txBytesOf (t : List BusEvent) : List Nat :=
  t.filterMap (fun e =>
    match e with
    | BusEvent.tx b => some b
    | _ => none)

/-- The frames that are page-program commands (first transmitted byte is the
page-program opcode 0x02). -/
def ppOnly (l : List (List Nat)) : List (List Nat) :=
  l.filter (fun f => f.head? == some Cmd.S25.PAGE_PROGRAM)

/-- Transmitted bytes of an operation that returned a result. -/
def opTxBytes (o : Option OpResult) : Option (List Nat) :=
  o.map (fun r => txBytesOf r.events)

/-- Frames of an operation that returned a result. -/
def opFrames (o : Option OpResult) : Option (List (List Nat)) :=
  o.map (fun r => frames r.events)

/-- Page-program frames of an operation that returned a result. -/
def opPPFrames (o : Option OpResult) : Option (List (List Nat)) :=
  o.map (fun r => ppOnly (frames r.events))

/-- An operation's trace is transaction-balanced (vacuously true when the
fuel ran out). -/
def opBalanced (o : Option OpResult) : Bool :=
  (o.map (fun r => csBalanced r.events)).getD true

/-- At most one page-program command was issued (vacuously true when the
fuel ran out). -/
def atMostOnePP (o : Option OpResult) : Bool :=
  match opPPFrames o with
  | none => true
  | some l => decide (l.length ≤ 1)

/-- Number of page chunks the write loop issues for a byte count. -/
def numChunks (B : Nat) : Nat := (B + 255) / 256

/-- The i-th page-program frame the write loop issues when started at
address `addr` with `rem` bytes remaining and the file at position `pos`:
the opcode, the 3-byte big-endian address advanced by whole chunks, and
whatever bytes the file still yields for that chunk (possibly none). -/
def ppChunkSpec (src : List Nat) (addr rem pos i : Nat) : List Nat :=
  Cmd.S25.PAGE_PROGRAM :: addrBytes (addr + 256 * i) ++
    (src.drop (pos + 256 * i)).take (min (rem - 256 * i) 256)

/-- std::stoi on an all-digit string (main.cpp line 79), over the string's
characters. -/
def stoiDigits (s : List Char) : Nat :=
  s.foldl (fun n c => n * 10 + (c.toNat - '0'.toNat)) 0

/-- convertKHz (main.cpp lines 65-89), with std::string modelled as its
character list: "max" maps to 0 (unlimited); a string containing a
non-digit is the coded error -1; a value above 1000 is the coded error -2
(message::speedTooHigh is printed); otherwise the parsed value. -/
def convertKHz (s : List Char) : Int :=
  if s = ['m', 'a', 'x'] then 0
  else if s.any (fun c => !c.isDigit) then -1
  else if stoiDigits s > 1000 then -2
  else (stoiDigits s : Int)

/-- The speed-argument handling of main (main.cpp lines 256-262): a negative
code from convertKHz aborts the program (exit EXIT_FAILURE); otherwise the
value becomes the device clock rate. -/
def speedArgGate (s : List Char) : Option Int :=
  if convertKHz s < 0 then none else some (convertKHz s)

/-- Oracle for a chip whose every returned byte is 0 (status: never busy). -/
def chipZero : Nat → Nat := fun _ => 0

/-- Oracle for a chip that echoes the receive index. -/
def chipIdx : Nat → Nat := fun k => k

/-- A supported SPI / 25-series device at offset 0 (byte count unused by
erase, which takes its own byteCount argument). -/
def devErase : Device :=
  { interface := IFACE.SPI, protocol := PROT.S25, KHz := 100, bytes := 0,
    offset := 0, jedecId := { manufacturer := 0, memoryType := 0, capacity := 0 },
    jedecValid := false }

/-- A supported device asking to write 300 bytes from offset 0. -/
def dev300 : Device :=
  { interface := IFACE.SPI, protocol := PROT.S25, KHz := 100, bytes := 300,
    offset := 0, jedecId := { manufacturer := 0, memoryType := 0, capacity := 0 },
    jedecValid := false }

/-- A 10-byte input file, shorter than the 300 bytes dev300 asks to write. -/
def src10 : List Nat := [1, 2, 3, 4, 5, 6, 7, 8, 9, 10]

/-- An unsupported pairing: two-wire interface with the 24-series family. -/
def devBad : Device :=
  { interface := IFACE.I2C, protocol := PROT.S24, KHz := 100, bytes := 16,
    offset := 0, jedecId := { manufacturer := 0, memoryType := 0, capacity := 0 },
    jedecValid := false }

/-- A supported device dumping 2 bytes from offset 0x010203. -/
def devDump : Device :=
  { interface := IFACE.SPI, protocol := PROT.S25, KHz := 0, bytes := 2,
    offset := 0x010203, jedecId := { manufacturer := 0, memoryType := 0, capacity := 0 },
    jedecValid := false }

/-- The concrete result of writing src10 through dev300 (fuel 8 suffices). -/
def rW : OpResult :=
  (writeFileToFlash dev300 true src10 chipZero 8).getD
    { diag := false, events := [], fileOut := [] }

/-- The command bytes claim C2 predicts for an 8 KiB erase at offset 0
against a never-busy chip: exactly two (write-enable, sector-erase at 0 and
4096, status-poll) triples and nothing else. -/
def c2ClaimTx : List Nat :=
  [0x06, 0x20, 0x00, 0x00, 0x00, 0x05, 0x06, 0x20, 0x00, 0x10, 0x00, 0x05]

/-! ## Helper lemmas -/

theorem setTiming_pos (k : Nat) (hk : 1 ≤ k) :
    setTiming k = { wait_clk := max 1 (500 / k), wait_byte := max 1 (500 / k),
                    wait_bit := max 1 (500 / k) } := by
  unfold setTiming
  rw [if_neg (by omega)]
  simp only []
  rcases Nat.lt_or_ge (500 / k) 1 with h | h
  · have h0 : 500 / k = 0 := Nat.lt_one_iff.mp h
    rw [if_pos h, h0]
    decide
  · rw [if_neg (Nat.not_lt.mpr h), max_eq_right h]

/-! ## Claim theorems: timing, bit level, configuration errors -/

/-- Claim C4: for khz in [1,1000], setTiming sets all three delay quanta to
max(1, 500 / khz) microseconds; the quantum is non-increasing as khz
increases; and setTiming 0 sets all three quanta to 0. -/
theorem setTiming_spec (k1 k2 : Nat) (h1 : 1 ≤ k1) (h12 : k1 ≤ k2)
    (h2 : k2 ≤ 1000) :
    setTiming k1 = { wait_clk := max 1 (500 / k1), wait_byte := max 1 (500 / k1),
                     wait_bit := max 1 (500 / k1) } ∧
    (setTiming k2).wait_clk ≤ (setTiming k1).wait_clk ∧
    (setTiming k2).wait_bit ≤ (setTiming k1).wait_bit ∧
    (setTiming k2).wait_byte ≤ (setTiming k1).wait_byte ∧
    setTiming 0 = { wait_clk := 0, wait_byte := 0, wait_bit := 0 } := by
  have key := setTiming_pos
  have hle : max 1 (500 / k2) ≤ max 1 (500 / k1) :=
    max_le_max (le_refl 1) (Nat.div_le_div_left h12 (by omega))
  rw [key k1 h1, key k2 (le_trans h1 h12)]
  exact ⟨rfl, hle, hle, hle, rfl⟩

/-- Witness for C4 at khz = 100 and khz = 500. -/
theorem setTiming_spec_witness :
    (1 ≤ 100 ∧ 100 ≤ 500 ∧ 500 ≤ 1000) ∧
    (setTiming 100 = { wait_clk := max 1 (500 / 100), wait_byte := max 1 (500 / 100),
                       wait_bit := max 1 (500 / 100) } ∧
     (setTiming 500).wait_clk ≤ (setTiming 100).wait_clk ∧
     (setTiming 500).wait_bit ≤ (setTiming 100).wait_bit ∧
     (setTiming 500).wait_byte ≤ (setTiming 100).wait_byte ∧
     setTiming 0 = { wait_clk := 0, wait_byte := 0, wait_bit := 0 }) :=
  ⟨by omega, setTiming_spec 100 500 (by omega) (by omega) (by omega)⟩

/-- Claim C5: transmitting a byte with tx_byte and receiving with rx_byte
over a loop-backed line (each level driven at a clock pulse is the level
sampled at the matching pulse) returns the byte unchanged: both directions
move 8 bits most-significant bit first. -/
theorem tx_rx_loopback :
    ∀ b, b < 256 → rx_byte_fromSamples (tx_byte_drivenBits b) = b := by decide

/-- Witness for C5 at b = 0xA5. -/
theorem tx_rx_loopback_witness :
    165 < 256 ∧ rx_byte_fromSamples (tx_byte_drivenBits 165) = 165 :=
  ⟨by decide, tx_rx_loopback 165 (by decide)⟩

/-- Claim C9: a numeric speed argument above 1000 KHz is a reported
configuration error: convertKHz returns the error code -2 (printing
message::speedTooHigh) and main aborts instead of adopting any clamped
rate. -/
theorem convertKHz_overspeed (s : List Char) (khz : Nat)
    (hdig : ∀ c ∈ s, c.isDigit = true) (hval : stoiDigits s = khz)
    (hgt : 1000 < khz) : convertKHz s = -2 ∧ speedArgGate s = none := by
  have hmax : s ≠ ['m', 'a', 'x'] := by
    intro he
    subst he
    exact absurd (hdig 'm' (by simp)) (by decide)
  have hany : s.any (fun c => !c.isDigit) = false := by
    rw [List.any_eq_false]
    intro c hc
    simp [hdig c hc]
  have hk : convertKHz s = -2 := by
    unfold convertKHz
    rw [if_neg hmax, if_neg (by simp [hany]), if_pos (by omega)]
  refine ⟨hk, ?_⟩
  unfold speedArgGate
  rw [hk]
  norm_num

/-- Witness for C9 at the argument string 2000. -/
theorem convertKHz_overspeed_witness :
    ((∀ c ∈ ['2', '0', '0', '0'], c.isDigit = true) ∧
     stoiDigits ['2', '0', '0', '0'] = 2000 ∧ 1000 < 2000) ∧
    (convertKHz ['2', '0', '0', '0'] = -2 ∧
     speedArgGate ['2', '0', '0', '0'] = none) :=
  ⟨⟨by decide, by decide, by decide⟩,
   convertKHz_overspeed ['2', '0', '0', '0'] 2000 (by decide) (by decide)
     (by decide)⟩

/-- Claim C10: hwSPI::readJedecId and hwSPI::readId return true for every
chip response, and initRead on an SPI transport therefore always sets
dev.jedecValid to true, whatever the three identity bytes were. -/
theorem readJedecId_always_true :
    ∀ (chip : Nat → Nat) (k : Nat) (dev : Device),
      (readJedecId chip k).ok = true ∧ (readId chip k).ok = true ∧
      ((initRead true dev chip k).1).jedecValid = true := by
  intro chip k dev
  exact ⟨rfl, rfl, rfl⟩

/-- Claim C7: when the interface/protocol pairing is not SPI with the
25-series family, each public flash operation reports a diagnostic and
returns with an empty hardware trace: no pin write and no other hardware
access happens. -/
theorem unsupported_pairing_aborts :
    ∀ (dev : Device) (rm : Bool) (src : List Nat) (chip : Nat → Nat)
      (fuel bc : Nat),
      dev.interface ≠ IFACE.SPI ∨ dev.protocol ≠ PROT.S25 →
      dumpFlashToFile dev chip = { diag := true, events := [], fileOut := [] } ∧
      writeFileToFlash dev rm src chip fuel =
        some { diag := true, events := [], fileOut := [] } ∧
      eraseFlash dev bc chip fuel =
        some { diag := true, events := [], fileOut := [] } := by
  intro dev rm src chip fuel bc h
  refine ⟨?_, ?_, ?_⟩
  · unfold dumpFlashToFile
    rw [if_pos h]
  · unfold writeFileToFlash
    rw [if_pos h]
  · unfold eraseFlash
    rw [if_pos h]

/-- Witness for C7 at the two-wire / 24-series pairing. -/
theorem unsupported_pairing_aborts_witness :
    (devBad.interface ≠ IFACE.SPI ∨ devBad.protocol ≠ PROT.S25) ∧
    (dumpFlashToFile devBad chipZero = { diag := true, events := [], fileOut := [] } ∧
     writeFileToFlash devBad true [] chipZero 1 =
       some { diag := true, events := [], fileOut := [] } ∧
     eraseFlash devBad 0 chipZero 1 =
       some { diag := true, events := [], fileOut := [] }) :=
  ⟨by decide, unsupported_pairing_aborts devBad true [] chipZero 1 0 (by decide)⟩

/-! ## Claim theorems: erase command sequences -/

/-- Counterexample for claim C2: the 8 KiB erase at offset 0 does not put
exactly two (write-enable, sector-erase, busy-poll) triples on the bus —
eraseFlash transmits an extra preliminary write-enable (hardware.cpp lines
272-274) before the sector loop, so the command bytes are not the claimed
c2ClaimTx. -/
theorem eraseFlash_range8192_counterexample :
    opTxBytes (eraseFlash devErase 8192 chipZero 8) ≠ some c2ClaimTx := by
  decide

/-- Amended C2: the 8 KiB erase at offset 0 on a supported SPI/25-series
device against a never-busy chip transmits one preliminary write-enable
followed by exactly the two (write-enable, sector-erase at 0 and at 4096,
status-poll) triples and nothing else. -/
theorem eraseFlash_range8192_txBytes :
    opTxBytes (eraseFlash devErase 8192 chipZero 8) =
      some (Cmd.S25.WRITE_ENABLE :: c2ClaimTx) := by
  decide

/-- Counterexample for claim C8: the whole-chip erase does not issue the
write-enable and chip-erase commands within a single transaction — the
frames are [[0x06], [0xC7]], two transactions, not [[0x06, 0xC7]]. -/
theorem eraseFlash_chipErase_counterexample :
    opFrames (eraseFlash devErase 0 chipZero 8) ≠
      some [[Cmd.S25.WRITE_ENABLE, Cmd.S25.CHIP_ERASE]] := by
  decide

/-- Amended C8: for every supported SPI/25-series device, eraseFlash with
byteCount = 0 issues exactly one write-enable in its own transaction
followed by one chip-erase in a second transaction, with no address bytes
and no busy-poll, and returns immediately after the chip-erase command. -/
theorem eraseFlash_chipErase_trace :
    ∀ (khz bytes offset : Nat) (id : ChipId) (v : Bool) (chip : Nat → Nat)
      (fuel : Nat),
      eraseFlash (Device.mk IFACE.SPI PROT.S25 khz bytes offset id v) 0 chip
          fuel =
        some { diag := false,
               events := [BusEvent.init, BusEvent.wp false, BusEvent.start,
                          BusEvent.tx Cmd.S25.WRITE_ENABLE, BusEvent.stop,
                          BusEvent.start, BusEvent.tx Cmd.S25.CHIP_ERASE,
                          BusEvent.stop],
               fileOut := [] } := by
  intro khz bytes offset id v chip fuel
  simp [eraseFlash]

/-- Counterexample for claim C6: the range erase opens a transaction at
hardware.cpp line 275 and then opens another inside the sector loop at
line 284 before any stop, so two start/stop frames overlap: the 4 KiB
erase trace violates the chip-select discipline. -/
theorem transaction_discipline_counterexample :
    opBalanced (eraseFlash devErase 4096 chipZero 8) = false := by
  decide

/-- Counterexample for claim C1: writing 300 bytes from a 10-byte file
exhausts the source inside the first 256-byte chunk, yet the loop does not
terminate early: a second page-program command is issued (at address 256,
with an empty data phase), refuting both the early-termination and the
advance-by-bytes-actually-written parts of the claim. -/
theorem writeFileToFlash_truncation_counterexample :
    src10.length = 10 ∧ dev300.bytes = 300 ∧
    opPPFrames (writeFileToFlash dev300 true src10 chipZero 8) =
      some [[0x02, 0x00, 0x00, 0x00, 1, 2, 3, 4, 5, 6, 7, 8, 9, 10],
            [0x02, 0x00, 0x01, 0x00]] ∧
    atMostOnePP (writeFileToFlash dev300 true src10 chipZero 8) = false := by
  refine ⟨rfl, rfl, by decide, by decide⟩

/-! ## Machinery -/

theorem progData_eq (src : List Nat) :
    ∀ (n pos : Nat), progData src pos n =
      ((src.drop pos).take n, pos + min n (src.length - pos)) := by
  intro n
  induction n with
  | zero => intro pos; simp [progData]
  | succ n ih =>
    intro pos
    simp only [progData, pullByteFromFile]
    cases h : src.get? pos with
    | none =>
      have hlen : src.length ≤ pos := List.get?_eq_none.mp h
      rw [List.drop_eq_nil_of_le hlen]
      simp
      omega
    | some b =>
      obtain ⟨hn, he⟩ := List.get?_eq_some.mp h
      have hdrop : src.drop pos = b :: src.drop (pos + 1) := by
        rw [List.drop_eq_getElem_cons hn]
        simp only [List.get_eq_getElem] at he
        rw [he]
      dsimp only
      rw [hdrop, List.take_succ_cons, ih (pos + 1)]
      simp only [Prod.mk.injEq, List.cons.injEq, true_and, and_true]
      omega

theorem dumpLoop_eq (chip : Nat → Nat) :
    ∀ (n k : Nat), dumpLoop chip k n =
      ((List.range n).map (fun i => BusEvent.rx (chip (k + i) % 256)),
       (List.range n).map (fun i => chip (k + i) % 256)) := by
  intro n
  induction n with
  | zero => intro k; simp [dumpLoop]
  | succ n ih =>
    intro k
    have harg : ∀ i : Nat, k + 1 + i = k + (i + 1) := by omega
    simp only [dumpLoop, ih (k + 1), List.range_succ_eq_map, List.map_cons,
      List.map_map, Prod.mk.injEq]
    constructor <;> simp [Function.comp, harg]

theorem csRun_append (xs ys : List BusEvent) :
    ∀ o, csRun o (xs ++ ys) = (csRun o xs).bind (fun o2 => csRun o2 ys) := by
  induction xs with
  | nil => intro o; simp [csRun]
  | cons e r ih =>
    intro o
    cases e with
    | start =>
      by_cases ho : o
      · simp [csRun, ho]
      · simp [csRun, ho, ih]
    | stop =>
      by_cases ho : o
      · simp [csRun, ho, ih]
      · simp [csRun, ho]
    | tx b => simpa [csRun] using ih o
    | rx b => simpa [csRun] using ih o
    | init => simpa [csRun] using ih o
    | wp e => simpa [csRun] using ih o

theorem csRun_txs (l : List Nat) : ∀ o, csRun o (l.map BusEvent.tx) = some o := by
  induction l with
  | nil => intro o; simp [csRun]
  | cons b r ih => intro o; simp [csRun, ih]

theorem csRun_rxs (l : List Nat) : ∀ o, csRun o (l.map BusEvent.rx) = some o := by
  induction l with
  | nil => intro o; simp [csRun]
  | cons b r ih => intro o; simp [csRun, ih]

theorem waitBusy_csRun (chip : Nat → Nat) :
    ∀ (fuel k : Nat) (evs : List BusEvent) (k2 : Nat),
      s25_waitBusy chip fuel k = some (evs, k2) →
      csRun false evs = some false := by
  intro fuel
  induction fuel with
  | zero => intro k evs k2 h; simp [s25_waitBusy] at h
  | succ fuel ih =>
    intro k evs k2 h
    simp only [s25_waitBusy] at h
    by_cases hst : chip k % 256 &&& 1 = 0
    · rw [if_pos hst] at h
      simp only [Option.some.injEq, Prod.mk.injEq] at h
      obtain ⟨h1, h2⟩ := h
      subst h1
      simp [csRun]
    · rw [if_neg hst] at h
      cases hrec : s25_waitBusy chip fuel (k + 1) with
      | none => rw [hrec] at h; simp at h
      | some p =>
        obtain ⟨evs2, k3⟩ := p
        rw [hrec] at h
        simp only [Option.some.injEq, Prod.mk.injEq] at h
        obtain ⟨h1, h2⟩ := h
        subst h1
        have hr := ih (k + 1) evs2 k3 hrec
        simp [csRun_append, csRun, hr]

theorem framesA_txs (l : List Nat) :
    ∀ (c : List Nat) (r : List BusEvent),
      framesA (some c) (l.map BusEvent.tx ++ r) =
        framesA (some (l.reverse ++ c)) r := by
  induction l with
  | nil => intro c r; simp
  | cons b t ih =>
    intro c r
    simp only [List.map_cons, List.cons_append, framesA, List.append_eq]
    rw [ih (b :: c)]
    congr 1
    simp

theorem waitBusy_frames (chip : Nat → Nat) :
    ∀ (fuel k : Nat) (evs : List BusEvent) (k2 : Nat),
      s25_waitBusy chip fuel k = some (evs, k2) →
      ∀ ys, ppOnly (framesA none (evs ++ ys)) = ppOnly (framesA none ys) := by
  intro fuel
  induction fuel with
  | zero => intro k evs k2 h; simp [s25_waitBusy] at h
  | succ fuel ih =>
    intro k evs k2 h ys
    simp only [s25_waitBusy] at h
    by_cases hst : chip k % 256 &&& 1 = 0
    · rw [if_pos hst] at h
      simp only [Option.some.injEq, Prod.mk.injEq] at h
      obtain ⟨h1, h2⟩ := h
      subst h1
      simp [framesA, ppOnly, List.filter, Cmd.S25.READ_STATUS, Cmd.S25.PAGE_PROGRAM]
    · rw [if_neg hst] at h
      cases hrec : s25_waitBusy chip fuel (k + 1) with
      | none => rw [hrec] at h; simp at h
      | some p =>
        obtain ⟨evs2, k3⟩ := p
        rw [hrec] at h
        simp only [Option.some.injEq, Prod.mk.injEq] at h
        obtain ⟨h1, h2⟩ := h
        subst h1
        have hr := ih (k + 1) evs2 k3 hrec (ys)
        simp only [List.append_assoc]
        rw [show framesA none
            ([BusEvent.start, BusEvent.tx Cmd.S25.READ_STATUS,
              BusEvent.rx (chip k % 256), BusEvent.stop] ++ (evs2 ++ ys)) =
            [Cmd.S25.READ_STATUS] :: framesA none (evs2 ++ ys) from rfl]
        rw [show ppOnly ([Cmd.S25.READ_STATUS] :: framesA none (evs2 ++ ys)) =
            ppOnly (framesA none (evs2 ++ ys)) from by
          simp [ppOnly, List.filter, Cmd.S25.READ_STATUS, Cmd.S25.PAGE_PROGRAM]]
        exact hr

theorem writeLoop_csRun (chip : Nat → Nat) (src : List Nat) :
    ∀ (fuel addr remaining pos k : Nat) (evs : List BusEvent) (pos2 k2 : Nat),
      writeLoop chip src fuel addr remaining pos k = some (evs, pos2, k2) →
      csRun false evs = some false := by
  intro fuel
  induction fuel with
  | zero =>
    intro addr remaining pos k evs pos2 k2 h
    simp only [writeLoop] at h
    split at h
    · simp only [Option.some.injEq, Prod.mk.injEq] at h
      obtain ⟨h1, -⟩ := h
      subst h1
      simp [csRun]
    · simp at h
  | succ fuel ih =>
    intro addr remaining pos k evs pos2 k2 h
    simp only [writeLoop] at h
    split at h
    · simp only [Option.some.injEq, Prod.mk.injEq] at h
      obtain ⟨h1, -⟩ := h
      subst h1
      simp [csRun]
    · split at h
      · simp at h
      · split at h
        · simp at h
        · simp only [Option.some.injEq, Prod.mk.injEq] at h
          obtain ⟨h1, -⟩ := h
          subst h1
          rename_i x1 bevs kb hb x2 revs pos3 k3 hw
          have hb2 := waitBusy_csRun chip (fuel + 1) k bevs kb hb
          have hr2 := ih _ _ _ _ _ _ _ hw
          simp [csRun_append, csRun, addrBytes, csRun_txs, hb2, hr2]


theorem framesA_progFrame (addr : Nat) (data : List Nat) (rest : List BusEvent) :
    framesA none
      ([BusEvent.start, BusEvent.tx Cmd.S25.WRITE_ENABLE, BusEvent.stop,
        BusEvent.start, BusEvent.tx Cmd.S25.PAGE_PROGRAM] ++
        (List.map BusEvent.tx (addrBytes addr) ++
          (List.map BusEvent.tx data ++ ([BusEvent.stop] ++ rest)))) =
      [Cmd.S25.WRITE_ENABLE] ::
        (Cmd.S25.PAGE_PROGRAM :: addrBytes addr ++ data) :: framesA none rest := by
  simp only [addrBytes, List.map_cons, List.map_nil, List.cons_append,
    List.nil_append, framesA]
  simp only [List.append_eq, List.nil_append]
  rw [framesA_txs]
  simp [framesA, List.reverse_append, addrBytes]

theorem ppOnly_prog (addrB data : List Nat) (l : List (List Nat)) :
    ppOnly ([Cmd.S25.WRITE_ENABLE] ::
        (Cmd.S25.PAGE_PROGRAM :: addrB ++ data) :: l) =
      (Cmd.S25.PAGE_PROGRAM :: addrB ++ data) :: ppOnly l := by
  simp [ppOnly, List.filter_cons, Cmd.S25.WRITE_ENABLE, Cmd.S25.PAGE_PROGRAM]

theorem ppChunkSpec_shift (src : List Nat) (addr rem pos i : Nat) :
    ppChunkSpec src (addr + 256) (rem - 256) (pos + min 256 (src.length - pos)) i =
      ppChunkSpec src addr rem pos (i + 1) := by
  unfold ppChunkSpec
  have ha : addr + 256 + 256 * i = addr + 256 * (i + 1) := by omega
  have ht : min (rem - 256 - 256 * i) 256 = min (rem - 256 * (i + 1)) 256 := by
    omega
  rw [ha, ht]
  congr 2
  rcases le_or_lt 256 (src.length - pos) with hle2 | hlt2
  · rw [min_eq_left hle2]
    congr 1
    omega
  · have h1 : src.length ≤ pos + min 256 (src.length - pos) + 256 * i := by omega
    have h2 : src.length ≤ pos + 256 * (i + 1) := by omega
    rw [List.drop_eq_nil_of_le h1, List.drop_eq_nil_of_le h2]

theorem writeLoop_pp (chip : Nat → Nat) (src : List Nat) :
    ∀ (fuel addr remaining pos k : Nat) (evs : List BusEvent) (pos2 k2 : Nat),
      writeLoop chip src fuel addr remaining pos k = some (evs, pos2, k2) →
      ∀ ys, ppOnly (framesA none (evs ++ ys)) =
        (List.range (numChunks remaining)).map
          (ppChunkSpec src addr remaining pos) ++
          ppOnly (framesA none ys) := by
  intro fuel
  induction fuel with
  | zero =>
    intro addr remaining pos k evs pos2 k2 h ys
    simp only [writeLoop] at h
    split at h
    · rename_i hrem
      simp only [Option.some.injEq, Prod.mk.injEq] at h
      obtain ⟨h1, -⟩ := h
      subst h1
      subst hrem
      simp [numChunks]
    · simp at h
  | succ fuel ih =>
    intro addr remaining pos k evs pos2 k2 h ys
    simp only [writeLoop] at h
    split at h
    · rename_i hrem
      simp only [Option.some.injEq, Prod.mk.injEq] at h
      obtain ⟨h1, -⟩ := h
      subst h1
      subst hrem
      simp [numChunks]
    · rename_i hrem
      split at h
      · simp at h
      · split at h
        · simp at h
        · simp only [Option.some.injEq, Prod.mk.injEq] at h
          obtain ⟨h1, -⟩ := h
          subst h1
          rename_i x1 bevs kb hb x2 revs pos3 k3 hw
          have hch : (if remaining > Limits.S25_PAGE_SIZE then Limits.S25_PAGE_SIZE
              else remaining) = min remaining 256 := by
            simp only [Limits.S25_PAGE_SIZE]
            split <;> omega
          simp only [hch, progData_eq] at hw
          have htail := ih _ _ _ _ _ _ _ hw ys
          simp only [hch, progData_eq, List.append_assoc]
          rw [framesA_progFrame, ppOnly_prog,
            waitBusy_frames chip (fuel + 1) k bevs kb hb (revs ++ ys), htail]
          have hnc : numChunks remaining =
              numChunks (remaining - min remaining 256) + 1 := by
            unfold numChunks
            omega
          rw [hnc, List.range_succ_eq_map, List.map_cons, List.map_map,
            List.cons_append]
          have hhead : ppChunkSpec src addr remaining pos 0 =
              Cmd.S25.PAGE_PROGRAM :: addrBytes addr ++
                (src.drop pos).take (min remaining 256) := by
            simp [ppChunkSpec]
          have htailmap :
              List.map (ppChunkSpec src (addr + min remaining 256)
                  (remaining - min remaining 256)
                  (pos + min (min remaining 256) (src.length - pos)))
                (List.range (numChunks (remaining - min remaining 256))) =
              List.map (ppChunkSpec src addr remaining pos ∘ Nat.succ)
                (List.range (numChunks (remaining - min remaining 256))) := by
            rcases Nat.lt_or_ge 256 remaining with hgt | hle
            · have h256 : min remaining 256 = 256 := by omega
              rw [h256]
              refine List.map_congr_left fun i hi => ?_
              simpa [Function.comp] using
                ppChunkSpec_shift src addr remaining pos i
            · have h0 : remaining - min remaining 256 = 0 := by omega
              rw [h0]
              simp [numChunks]
          rw [hhead, htailmap]
          simp [List.cons_append]

theorem dumpLoop_csRun (chip : Nat → Nat) :
    ∀ (n k : Nat) (o : Bool), csRun o (dumpLoop chip k n).1 = some o := by
  intro n
  induction n with
  | zero => intro k o; simp [dumpLoop, csRun]
  | succ n ih => intro k o; simp [dumpLoop, csRun, ih]

/-- Amended C1: the page-program frames issued by writeFileToFlash (for a
supported pairing and a readable source) are exactly one frame per
256-byte chunk of dev.bytes: frame i carries the page-program opcode, the
3-byte address offset + 256 * i (the address always advances by the full
chunk), and whatever bytes the source still yields for that chunk — the
data phase is truncated with no padding once the source is exhausted, but
the loop keeps issuing write-enable / page-program commands (with empty
data phases) until the requested byte count is consumed. -/
theorem writeFileToFlash_ppFrames :
    ∀ (dev : Device) (src : List Nat) (chip : Nat → Nat) (fuel : Nat)
      (r : OpResult),
      dev.interface = IFACE.SPI → dev.protocol = PROT.S25 →
      writeFileToFlash dev true src chip fuel = some r →
      ppOnly (frames r.events) =
        (List.range (numChunks dev.bytes)).map
          (ppChunkSpec src dev.offset dev.bytes 0) := by
  intro dev src chip fuel r hi hp h
  unfold writeFileToFlash at h
  rw [if_neg (by simp [hi, hp])] at h
  rw [if_neg (by simp)] at h
  cases hw : writeLoop chip src fuel dev.offset dev.bytes 0 0 with
  | none => rw [hw] at h; simp at h
  | some t =>
    obtain ⟨evs, pos2, k2⟩ := t
    rw [hw] at h
    simp only [Option.some.injEq] at h
    subst h
    have hmain := writeLoop_pp chip src fuel dev.offset dev.bytes 0 0 evs pos2
      k2 hw []
    simp only [List.append_nil] at hmain
    simp only [frames]
    rw [show framesA none ([BusEvent.init, BusEvent.wp false] ++ evs) =
      framesA none evs from rfl]
    rw [hmain]
    simp [framesA, ppOnly]

/-- Witness for amended C1 at dev300 / src10. -/
theorem writeFileToFlash_ppFrames_witness :
    dev300.interface = IFACE.SPI ∧ dev300.protocol = PROT.S25 ∧
    writeFileToFlash dev300 true src10 chipZero 8 = some rW ∧
    ppOnly (frames rW.events) =
      (List.range (numChunks dev300.bytes)).map
        (ppChunkSpec src10 dev300.offset dev300.bytes 0) :=
  ⟨rfl, rfl, by decide,
   writeFileToFlash_ppFrames dev300 src10 chipZero 8 rW rfl rfl (by decide)⟩

/-- Claim C3: for every supported device, dumpFlashToFile runs the JEDEC
identify and then performs one transaction that transmits the read opcode
0x03 followed by the three bytes of the start offset most-significant byte
first, then receives exactly dev.bytes bytes in order (receive indices 3,
4, ...), each streamed to the file as produced; for dev.bytes = 0 no data
byte is received after the command/address phase. -/
theorem dumpFlashToFile_spec :
    ∀ (dev : Device) (chip : Nat → Nat),
      dev.interface = IFACE.SPI → dev.protocol = PROT.S25 →
      dumpFlashToFile dev chip =
        { diag := false,
          events := [BusEvent.init] ++ (readJedecId chip 0).events ++
            ([BusEvent.start, BusEvent.tx Cmd.S25.READ] ++
              (addrBytes dev.offset).map BusEvent.tx) ++
            (List.range dev.bytes).map
              (fun i => BusEvent.rx (chip (3 + i) % 256)) ++
            [BusEvent.stop],
          fileOut := (List.range dev.bytes).map (fun i => chip (3 + i) % 256) } := by
  intro dev chip hi hp
  unfold dumpFlashToFile
  rw [if_neg (by simp [hi, hp])]
  simp only [initRead, readId, if_pos rfl]
  simp only [dumpLoop_eq, readJedecId]
  simp [List.append_assoc]

/-- Witness for C3 at devDump (2 bytes from offset 0x010203) with the
index-echo chip. -/
theorem dumpFlashToFile_spec_witness :
    devDump.interface = IFACE.SPI ∧ devDump.protocol = PROT.S25 ∧
    dumpFlashToFile devDump chipIdx =
      { diag := false,
        events := [BusEvent.init] ++ (readJedecId chipIdx 0).events ++
          ([BusEvent.start, BusEvent.tx Cmd.S25.READ] ++
            (addrBytes devDump.offset).map BusEvent.tx) ++
          (List.range devDump.bytes).map
            (fun i => BusEvent.rx (chipIdx (3 + i) % 256)) ++
          [BusEvent.stop],
        fileOut := (List.range devDump.bytes).map
          (fun i => chipIdx (3 + i) % 256) } :=
  ⟨rfl, rfl, dumpFlashToFile_spec devDump chipIdx rfl rfl⟩

/-- Amended C6: the chip-select discipline (every start matched by a stop
before the next start, never two overlapping frames) holds for every dump,
every terminating write, every whole-chip erase (byteCount = 0) and every
identify — but not for the range erase, which nests transactions (see the
counterexample). -/
theorem transaction_discipline_amended :
    (∀ (dev : Device) (chip : Nat → Nat),
      csBalanced (dumpFlashToFile dev chip).events = true) ∧
    (∀ (dev : Device) (rm : Bool) (src : List Nat) (chip : Nat → Nat)
      (fuel : Nat), opBalanced (writeFileToFlash dev rm src chip fuel) = true) ∧
    (∀ (dev : Device) (chip : Nat → Nat) (fuel : Nat),
      opBalanced (eraseFlash dev 0 chip fuel) = true) ∧
    (∀ (chip : Nat → Nat) (k : Nat),
      csBalanced (readJedecId chip k).events = true) := by
  refine ⟨?_, ?_, ?_, ?_⟩
  · intro dev chip
    by_cases hp : dev.interface ≠ IFACE.SPI ∨ dev.protocol ≠ PROT.S25
    · unfold dumpFlashToFile
      rw [if_pos hp]
      rfl
    · unfold dumpFlashToFile
      rw [if_neg hp]
      simp only [initRead, readId, if_pos rfl]
      unfold csBalanced
      simp [csRun_append, csRun, readJedecId, addrBytes, dumpLoop_csRun]
  · intro dev rm src chip fuel
    by_cases hp : dev.interface ≠ IFACE.SPI ∨ dev.protocol ≠ PROT.S25
    · unfold writeFileToFlash
      rw [if_pos hp]
      rfl
    · unfold writeFileToFlash
      rw [if_neg hp]
      cases rm with
      | false => rfl
      | true =>
        rw [if_neg (by simp)]
        cases hw : writeLoop chip src fuel dev.offset dev.bytes 0 0 with
        | none => rfl
        | some t =>
          obtain ⟨evs, pos2, k2⟩ := t
          have hr := writeLoop_csRun chip src fuel dev.offset dev.bytes 0 0
            evs pos2 k2 hw
          unfold opBalanced csBalanced
          simp [csRun, hr]
  · intro dev chip fuel
    by_cases hp : dev.interface ≠ IFACE.SPI ∨ dev.protocol ≠ PROT.S25
    · unfold eraseFlash
      rw [if_pos hp]
      rfl
    · unfold eraseFlash
      rw [if_neg hp]
      rfl
  · intro chip k
    rfl
